import Mathlib

/-!
A shallow embedding of the weapon-strike execution (`NukeExecution`) of a
tick-driven game simulation, together with the scheduler and diplomacy hooks
it interacts with.

World state is read through an environment (`Env`) of query functions, and
world-state mutation is represented as an explicit trace of effects
(`Effect`), so each operation is a pure function from an execution state to
a new state paired with the effects it fired.  Components of the repository
that are consumed but whose code is not part of the sources (the game map's
search primitives, the seeded random source, the trajectory planner, the
tick scheduler and the diplomacy cancellation hook) are modelled from the
specification and are marked as such in their doc comments.
-/

/-- Opaque index into the map grid. -/
abbrev TileRef := Nat

/-- Player identifier. -/
abbrev PlayerId := Nat

/-- The unit types referenced by the weapon-strike execution. -/
inductive UnitType where
  | AtomBomb
  | HydrogenBomb
  | MIRVWarhead
  | MIRV
  | MissileSilo
  | TransportShip
  | City
  deriving Repr, DecidableEq

/-- Display-event message categories used by the strike execution. -/
inductive MessageType where
  | NUKE_INBOUND
  | HYDROGEN_BOMB_INBOUND
  deriving Repr, DecidableEq

/-- Per-weapon-class magnitude: inner (guaranteed) and outer (probabilistic)
destruction radii. -/
structure Magnitude where
  inner : Nat
  outer : Nat
  deriving Repr, DecidableEq

/-- The strike's own spawned unit (`this.nuke`): id, type, current tile and
the target tile it was built with. -/
structure UnitInfo where
  id : Nat
  utype : UnitType
  tile : TileRef
  targetTile : Option TileRef
  deriving Repr, DecidableEq

/-- A unit existing in the world (`mg.units()` / `player.units(...)`). -/
structure GameUnit where
  id : Nat
  utype : UnitType
  owner : PlayerId
  tile : TileRef
  troops : Nat
  deriving Repr, DecidableEq

/-- An outgoing attack force of a player. -/
structure Attack where
  id : Nat
  troops : Nat
  deriving Repr, DecidableEq

/-- One world-state mutation or notification fired by the execution.
The single-writer tick loop applies these in order. -/
inductive Effect where
  | warn (msg : String)
  | logInfo (msg : String)
  | buildUnit (owner : PlayerId) (utype : UnitType) (spawn : TileRef)
      (targetTile : TileRef) (trajectory : List (TileRef × Bool))
  | rejectAllianceRequest (requestor target : PlayerId)
  | breakAlliance (p q : PlayerId)
  | updateRelation (p toward : PlayerId) (delta : Int)
  | display (unitId : Nat) (msgType : MessageType) (msg : String) (target : PlayerId)
  | statsBombLaunch (attacker : PlayerId) (target : Option PlayerId) (ntype : UnitType)
  | siloLaunch (unitId : Nat)
  | setTargetable (unitId : Nat) (b : Bool)
  | moveUnit (unitId : Nat) (t : TileRef)
  | setTrajectoryIndex (unitId : Nat) (i : Nat)
  | relinquish (p : PlayerId) (t : TileRef)
  | removeTroops (p : PlayerId) (n : Nat)
  | setAttackTroops (attackId : Nat) (n : Int)
  | setUnitTroops (unitId : Nat) (n : Int)
  | setFallout (t : TileRef)
  | deleteUnit (unitId : Nat) (showExplosion : Bool) (by_ : Option PlayerId)
  | touchUnit (unitId : Nat)
  | setReachedTarget (unitId : Nat)
  | statsBombLand (attacker : PlayerId) (target : Option PlayerId) (ntype : UnitType)
  deriving Repr, DecidableEq

/-- Modelled from the spec: the "Seeded Random Source — deterministic
pseudo-random generator keyed by the current tick count" (`PseudoRandom` is
not among the provided sources).  A linear-congruential generator. -/
structure PseudoRandom where
  state : Nat
  deriving Repr, DecidableEq

/-- Construct the generator from its seed (the current tick count). -/
def PseudoRandom.ofSeed (seed : Nat) : PseudoRandom := ⟨seed⟩

/-- Advance the generator one step. -/
def PseudoRandom.next (r : PseudoRandom) : Nat × PseudoRandom :=
  let s := (r.state * 1103515245 + 12345) % 2147483648
  (s, ⟨s⟩)

/-- `chance(2)`: a reproducible 1-in-2 draw. -/
def PseudoRandom.chance2 (r : PseudoRandom) : Bool × PseudoRandom :=
  let p := r.next
  (p.1 % 2 == 0, p.2)

/-- The read-only world/configuration interface consumed by the execution
(the game, its map, its configuration provider, diplomacy queries and the
unit registry).  The `Game` code is not among the provided sources; the
fields follow the narrow interface the execution calls through. -/
structure Env where
  /-- All tiles of the map grid. -/
  tiles : List TileRef
  /-- Map adjacency, used by the breadth-first search primitive. -/
  neighbors : TileRef → List TileRef
  /-- `euclideanDistSquared`. -/
  dist2 : TileRef → TileRef → Nat
  /-- Ownership lookup: `some p` when player `p` owns the tile, `none` for
  terra nullius (unowned). -/
  owner : TileRef → Option PlayerId
  isLand : TileRef → Bool
  ticks : Nat
  defaultNukeSpeed : Int
  nukeMagnitudes : UnitType → Magnitude
  nukeAllianceBreakThreshold : ℚ
  defaultNukeTargetableRange : Nat
  /-- Requestors of the pending alliance requests addressed to a player. -/
  incomingAllianceRequests : PlayerId → List PlayerId
  /-- Whether an alliance currently exists between the two players. -/
  hasAllianceWith : PlayerId → PlayerId → Bool
  /-- `player.canBuild(type, dst)`: `some spawn` resolves a launch site,
  `none` refuses. -/
  canBuild : UnitType → TileRef → Option TileRef
  /-- Modelled from the spec: the Trajectory Planner "computes a ballistic
  path between two tiles given a speed parameter and a curved-vs-direct
  flag" (`ParabolaPathFinder.computeControlPoints` is not among the
  provided sources). -/
  computePath : TileRef → TileRef → Int → Bool → List TileRef
  units : List GameUnit
  /-- Whether the unit with the given id is currently active in the world
  (interception by an external actor deactivates it). -/
  unitActive : Nat → Bool
  /-- Id given to the next unit built. -/
  nextUnitId : Nat
  playerTroops : PlayerId → Nat
  numTilesOwned : PlayerId → Nat
  maxTroops : PlayerId → Nat
  nukeDeathFactor : UnitType → Nat → Nat → Nat → Nat
  outgoingAttacks : PlayerId → List Attack
  playerName : PlayerId → String

/-- `mg.hasOwner(t)`: a player owns the tile. -/
def Env.hasOwner (env : Env) (t : TileRef) : Bool :=
  (env.owner t).isSome

/-- Modelled from the spec: of the unit types referenced by this module,
only the missile silo and the city are structure-category units
(`isStructureType` lives in the game code, which is not among the
provided sources). -/
def isStructureType : UnitType → Bool
  | UnitType.MissileSilo => true
  | UnitType.City => true
  | _ => false

/-- `SPRITE_RADIUS`: fixed visual margin added to the outer radius when
marking structures for redraw. -/
def SPRITE_RADIUS : Nat := 16

/-- The mutable state of a `NukeExecution`: its constructor fields plus
`active`, the spawned unit, the destroyed-tile cache and the trajectory
cursor of its path finder. -/
structure NukeState where
  nukeType : UnitType
  player : PlayerId
  dst : TileRef
  src : Option TileRef
  speed : Int
  waitTicks : Nat
  active : Bool
  nuke : Option UnitInfo
  tilesToDestroyCache : Option (List TileRef)
  path : List TileRef
  pathIndex : Nat
  inited : Bool
  deriving Repr, DecidableEq

/-- The constructor `new NukeExecution(type, player, dst, src?, speed = -1,
waitTicks = 0)`. -/
def NukeExecution.mkExec (nukeType : UnitType) (player : PlayerId) (dst : TileRef)
    (src : Option TileRef) (speed : Int) (waitTicks : Nat) : NukeState :=
  ⟨nukeType, player, dst, src, speed, waitTicks, true, none, none, [], 0, false⟩

/-- `init(mg, ticks)`: bind to the world, resolve the default speed,
construct the path finder. -/
def NukeExecution.init (env : Env) (s : NukeState) : NukeState :=
  { s with speed := if s.speed = -1 then env.defaultNukeSpeed else s.speed,
           inited := true }

/-- `isActive()`. -/
def NukeExecution.isActive (s : NukeState) : Bool := s.active

/-- `isInFlight()`: the spawned unit reference is non-null. -/
def NukeExecution.isInFlight (s : NukeState) : Bool := s.nuke.isSome

/-- `destroyInFlight()`: forced external cancellation. -/
def NukeExecution.destroyInFlight (s : NukeState) : NukeState × List Effect :=
  if s.active = false then (s, [])
  else
    match s.nuke with
    | some u => ({ s with nuke := none, active := false },
                 [Effect.deleteUnit u.id false none])
    | none => ({ s with active := false }, [])

/-- `tilesInRange()`: the circular blast estimate around the destination —
every tile the circle search within the outer radius visits, weighted 1
inside the inner radius and 0.5 between inner and outer.  The weapon class
is passed in for the magnitude lookup (the source reads it off the spawned
unit); the circle-search primitive itself lives in the game map code, which
is not among the provided sources, and is modelled from the spec as all
tiles whose squared distance to the center is within the radius. -/
def NukeExecution.tilesInRange (env : Env) (dst : TileRef) (utype : UnitType) :
    List (TileRef × ℚ) :=
  let mag := env.nukeMagnitudes utype
  let inner2 := mag.inner * mag.inner
  (env.tiles.filter fun t => decide (env.dist2 dst t ≤ mag.outer * mag.outer)).map
    fun t => (t, if env.dist2 dst t ≤ inner2 then 1 else 1 / 2)

/-- Accumulated blast weight of a player: the sum of the weights of the
in-range tiles that player owns (the `attacked` map of
`maybeBreakAlliances`). -/
def NukeExecution.blastWeight (env : Env) (dst : TileRef) (utype : UnitType)
    (p : PlayerId) : ℚ :=
  (((NukeExecution.tilesInRange env dst utype).filter
      fun tw => decide (env.owner tw.1 = some p)).map Prod.snd).sum

/-- The players appearing as owners of in-range tiles (the key set of the
`attacked` map). -/
def NukeExecution.attackedPlayers (env : Env) (inRange : List (TileRef × ℚ)) :
    List PlayerId :=
  (inRange.filterMap fun tw => env.owner tw.1).dedup

/-- The diplomacy side effects fired for one attacked player: if their
accumulated weight exceeds the threshold and the weapon is not the MIRV
warhead, reject a pending inbound request from the attacker, break an
existing alliance, and degrade the relation when distinct from the
attacker. -/
def NukeExecution.allianceSideEffects (env : Env) (attacker : PlayerId)
    (utype : UnitType) (w : PlayerId → ℚ) (p : PlayerId) : List Effect :=
  if env.nukeAllianceBreakThreshold < w p ∧ utype ≠ UnitType.MIRVWarhead then
    (if attacker ∈ env.incomingAllianceRequests p then
       [Effect.rejectAllianceRequest attacker p]
     else [])
    ++ (if env.hasAllianceWith attacker p then [Effect.breakAlliance attacker p] else [])
    ++ (if p ≠ attacker then [Effect.updateRelation p attacker (-100)] else [])
  else []

/-- `maybeBreakAlliances(inRange)`: accumulate blast weight per owning
player over the in-range tiles, then fire the per-player diplomacy side
effects. -/
def NukeExecution.maybeBreakAlliances (env : Env) (attacker : PlayerId)
    (utype : UnitType) (inRange : List (TileRef × ℚ)) : List Effect :=
  let w := fun p =>
    ((inRange.filter fun tw => decide (env.owner tw.1 = some p)).map Prod.snd).sum
  ((NukeExecution.attackedPlayers env inRange).map
      (NukeExecution.allianceSideEffects env attacker utype w)).flatten

/-- `isTargetable(targetTile, nukeTile, range2)`: within range of the
destination, or of the source when one is set. -/
def NukeExecution.isTargetable (env : Env) (src : Option TileRef)
    (targetTile nukeTile : TileRef) (range2 : Nat) : Bool :=
  decide (env.dist2 nukeTile targetTile < range2) ||
    match src with
    | some s0 => decide (env.dist2 s0 nukeTile < range2)
    | none => false

/-- `getTrajectory(target)`: every tile of the planned path, flagged
targetable by the source/destination range rule. -/
def NukeExecution.getTrajectory (env : Env) (s : NukeState) (target : TileRef) :
    List (TileRef × Bool) :=
  let range2 := env.defaultNukeTargetableRange ^ 2
  s.path.map fun t => (t, NukeExecution.isTargetable env s.src target t range2)

/-- Modelled from the spec: the Trajectory Planner cursor — "advance the
trajectory cursor by the configured speed; if the cursor reports arrival,
proceed to detonation" (`ParabolaPathFinder.nextTile` is not among the
provided sources).  `none` signals arrival. -/
def NukeExecution.nextTileStep (path : List TileRef) (idx : Nat) (speed : Int) :
    Option (TileRef × Nat) :=
  let j := idx + speed.toNat
  match path.get? j with
  | some t => some (t, j)
  | none => none

/-- Admit the not-yet-visited tiles of a neighbor list, threading the
random source through the admission predicate (part of the spec-modelled
breadth-first search primitive below). -/
def gameBfsAdmit (pred : PseudoRandom → TileRef → Bool × PseudoRandom) :
    List TileRef → List TileRef → PseudoRandom → List TileRef × PseudoRandom
  | [], _, r => ([], r)
  | n :: ns, visited, r =>
    if n ∈ visited then gameBfsAdmit pred ns visited r
    else
      let pr := pred r n
      if pr.1 then
        let rest := gameBfsAdmit pred ns (n :: visited) pr.2
        (n :: rest.1, rest.2)
      else gameBfsAdmit pred ns visited pr.2

/-- Fuelled worker for the breadth-first search: pop the queue head, admit
its unvisited neighbors, append them to queue and visited set. -/
def gameBfsAux (env : Env) (pred : PseudoRandom → TileRef → Bool × PseudoRandom) :
    Nat → List TileRef → List TileRef → PseudoRandom → List TileRef
  | 0, _, visited, _ => visited
  | _ + 1, [], visited, _ => visited
  | fuel + 1, t :: queue, visited, r =>
    let adm := gameBfsAdmit pred (env.neighbors t) visited r
    gameBfsAux env pred fuel (queue ++ adm.1) (visited ++ adm.1) adm.2

/-- Modelled from the spec: "a breadth-first expansion from the destination
tile, admitting a neighbor tile if ..." (`GameMap.bfs` is not among the
provided sources).  The start tile is in the result; each further tile got
admitted by the predicate. -/
def gameBfs (env : Env) (start : TileRef)
    (pred : PseudoRandom → TileRef → Bool × PseudoRandom) (r : PseudoRandom) :
    List TileRef :=
  gameBfsAux env pred (env.tiles.length + 1) [start] [start] r

/-- The admission filter of `tilesToDestroy`: squared distance within the
outer radius AND (within the inner radius OR a 1-in-2 draw), with the draw
consumed only when the first two tests leave it reachable, as in the
source's short-circuit `&&`/`||`. -/
def NukeExecution.destroyFilter (env : Env) (dst : TileRef) (mag : Magnitude)
    (r : PseudoRandom) (n : TileRef) : Bool × PseudoRandom :=
  let d2 := env.dist2 dst n
  if d2 ≤ mag.outer * mag.outer then
    if d2 ≤ mag.inner * mag.inner then (true, r)
    else r.chance2
  else (false, r)

/-- The uncached computation of the destroyed-tile set: the breadth-first
expansion from the destination under `destroyFilter`, with the random
source freshly seeded from the current tick count. -/
def NukeExecution.tilesToDestroyCompute (env : Env) (dst : TileRef)
    (utype : UnitType) : List TileRef :=
  let mag := env.nukeMagnitudes utype
  gameBfs env dst (NukeExecution.destroyFilter env dst mag)
    (PseudoRandom.ofSeed env.ticks)

/-- `tilesToDestroy()`: return the cache when present; otherwise (requiring
the spawned unit, else the source throws, modelled as `none`) compute the
set once and store it. -/
def NukeExecution.tilesToDestroy (env : Env) (s : NukeState) :
    Option (List TileRef × NukeState) :=
  match s.tilesToDestroyCache with
  | some c => some (c, s)
  | none =>
    match s.nuke with
    | none => none
    | some u =>
      let ts := NukeExecution.tilesToDestroyCompute env s.dst u.utype
      some (ts, { s with tilesToDestroyCache := some ts })

/-- The detonation effects applied at one destroyed tile: when a player
owns it, relinquish it, remove troops by the configured death factor, and
apply the proportional attrition to the owner's outgoing attacks and
transport ships; mark land tiles with fallout. -/
def NukeExecution.detonateTileFx (env : Env) (ntype : UnitType) (maxT : Nat)
    (t : TileRef) : List Effect :=
  (match env.owner t with
   | some p =>
     [Effect.relinquish p t,
      Effect.removeTroops p
        (env.nukeDeathFactor ntype (env.playerTroops p) (env.numTilesOwned p) maxT)]
     ++ (env.outgoingAttacks p).map (fun a =>
          Effect.setAttackTroops a.id
            ((a.troops : Int) - env.nukeDeathFactor ntype a.troops (env.numTilesOwned p) maxT))
     ++ ((env.units.filter fun gu =>
            decide (gu.owner = p ∧ gu.utype = UnitType.TransportShip)).map fun gu =>
          Effect.setUnitTroops gu.id
            ((gu.troops : Int) - env.nukeDeathFactor ntype gu.troops (env.numTilesOwned p) maxT))
   | none => [])
  ++ (if env.isLand t then [Effect.setFallout t] else [])

/-- `detonate()`: compute (or fetch) the destroyed-tile set, apply the
per-tile damage, delete collateral non-weapon units within the outer
radius, mark structures within outer radius plus the sprite margin for
redraw, deactivate, delete the weapon's own unit and record the impact. -/
def NukeExecution.detonate (env : Env) (s : NukeState) (u : UnitInfo) :
    NukeState × List Effect :=
  let outer := (env.nukeMagnitudes u.utype).outer
  let td := (NukeExecution.tilesToDestroy env s).getD ([], s)
  let maxT := match env.owner s.dst with
    | some p => env.maxTroops p
    | none => 1
  let tileFx := (td.1.map (NukeExecution.detonateTileFx env s.nukeType maxT)).flatten
  let collateralFx :=
    (env.units.filter fun gu =>
        decide (gu.utype ≠ UnitType.AtomBomb ∧ gu.utype ≠ UnitType.HydrogenBomb ∧
          gu.utype ≠ UnitType.MIRVWarhead ∧ gu.utype ≠ UnitType.MIRV ∧
          env.dist2 s.dst gu.tile < outer * outer)).map
      fun gu => Effect.deleteUnit gu.id true (some s.player)
  let touchFx :=
    (env.units.filter fun gu =>
        decide (isStructureType gu.utype = true ∧
          env.dist2 s.dst gu.tile < (outer + SPRITE_RADIUS) * (outer + SPRITE_RADIUS))).map
      fun gu => Effect.touchUnit gu.id
  ({ td.2 with active := false },
   tileFx ++ collateralFx ++ touchFx
     ++ [Effect.setReachedTarget u.id, Effect.deleteUnit u.id false none,
         Effect.statsBombLand s.player (env.owner s.dst) u.utype])

/-- The state fields pinned by the launch transition: the source tile and
the freshly computed ballistic path (curved for every class except the
MIRV warhead). -/
def NukeExecution.launchState (env : Env) (s : NukeState) (spawn : TileRef) : NukeState :=
  { s with
    src := some spawn,
    path := env.computePath spawn s.dst s.speed (decide (s.nukeType ≠ UnitType.MIRVWarhead)),
    pathIndex := 0 }

/-- The unit constructed at launch. -/
def NukeExecution.launchUnit (env : Env) (s : NukeState) (spawn : TileRef) : UnitInfo :=
  ⟨env.nextUnitId, s.nukeType, spawn, some s.dst⟩

/-- The `buildUnit` effect of the launch transition, carrying the
precomputed targetable-flagged trajectory. -/
def NukeExecution.launchBuildFx (env : Env) (s : NukeState) (spawn : TileRef) : List Effect :=
  [Effect.buildUnit s.player s.nukeType spawn s.dst
    (NukeExecution.getTrajectory env (NukeExecution.launchState env s spawn) s.dst)]

/-- The alliance-break side effects of the launch transition (skipped for
the MIRV warhead). -/
def NukeExecution.launchAllianceFx (env : Env) (s : NukeState) : List Effect :=
  if s.nukeType ≠ UnitType.MIRVWarhead then
    NukeExecution.maybeBreakAlliances env s.player s.nukeType
      (NukeExecution.tilesInRange env s.dst s.nukeType)
  else []

/-- The destination-owner alert and launch-statistics effects of the
launch transition: when the destination has an owner, display an inbound
alert to a player owner for the atom and hydrogen bombs, and record the
launch with the statistics sink. -/
def NukeExecution.launchAlertFx (env : Env) (s : NukeState) (uid : Nat) : List Effect :=
  if env.hasOwner s.dst then
    (match env.owner s.dst with
     | some target =>
       match s.nukeType with
       | UnitType.AtomBomb =>
         [Effect.display uid MessageType.NUKE_INBOUND
           (env.playerName s.player ++ " - atom bomb inbound") target]
       | UnitType.HydrogenBomb =>
         [Effect.display uid MessageType.HYDROGEN_BOMB_INBOUND
           (env.playerName s.player ++ " - hydrogen bomb inbound") target]
       | _ => []
     | none => [])
    ++ [Effect.statsBombLaunch s.player (env.owner s.dst) s.nukeType]
  else []

/-- The silo-cooldown effect of the launch transition: the first missile
silo of the player standing on the spawn tile is put on cooldown. -/
def NukeExecution.launchSiloFx (env : Env) (s : NukeState) (spawn : TileRef) : List Effect :=
  match (env.units.filter fun gu =>
      decide (gu.owner = s.player ∧ gu.utype = UnitType.MissileSilo ∧ gu.tile = spawn)).head? with
  | some silo => [Effect.siloLaunch silo.id]
  | none => []

/-- The launch transition of `tick` (`Queued → InFlight`, once `canBuild`
resolved a spawn tile): pin the source, compute the path, build the unit
with its trajectory, fire the alliance-break side effects for non-warhead
classes, alert a player-owned destination and record the launch, and put
the silo at the spawn tile on cooldown. -/
def NukeExecution.launch (env : Env) (s : NukeState) (spawn : TileRef) :
    NukeState × List Effect :=
  ({ NukeExecution.launchState env s spawn with nuke := some (NukeExecution.launchUnit env s spawn) },
   NukeExecution.launchBuildFx env s spawn
     ++ NukeExecution.launchAllianceFx env s
     ++ NukeExecution.launchAlertFx env s (NukeExecution.launchUnit env s spawn).id
     ++ NukeExecution.launchSiloFx env s spawn)

/-- `tick(ticks)`: launch when no unit exists yet (or cancel when no launch
site resolves); otherwise cancel on interception, throttle on a positive
wait-tick counter, and else advance along the trajectory or detonate on
arrival. -/
def NukeExecution.tick (env : Env) (s : NukeState) : NukeState × List Effect :=
  match s.nuke with
  | none =>
    match env.canBuild s.nukeType s.dst with
    | none => ({ s with active := false }, [Effect.warn "cannot build Nuke"])
    | some spawn => NukeExecution.launch env s spawn
  | some u =>
    if env.unitActive u.id = false then
      ({ s with active := false }, [Effect.logInfo "Nuke destroyed before reaching target"])
    else if 0 < s.waitTicks then
      ({ s with waitTicks := s.waitTicks - 1 }, [])
    else
      match NukeExecution.nextTileStep s.path s.pathIndex s.speed with
      | none => NukeExecution.detonate env s u
      | some ti =>
        let targFx :=
          match u.targetTile with
          | none => []
          | some tt =>
            [Effect.setTargetable u.id
              (NukeExecution.isTargetable env s.src tt u.tile
                (env.defaultNukeTargetableRange ^ 2))]
        ({ s with nuke := some { u with tile := ti.1 }, pathIndex := ti.2 },
         targFx ++ [Effect.moveUnit u.id ti.1, Effect.setTrajectoryIndex u.id ti.2])

/-- Modelled from the spec: the Tick Scheduler — "for each execution not
yet initialized, calls `init`, then calls `tick` for every execution ...
then removes every execution whose `isActive()` is now false", with the
guarantee that "once `isActive()` is false the scheduler guarantees no
further `tick` calls will occur" (`Game.executeNextTick` is not among the
provided sources). -/
def Game.executeNextTick (env : Env) (execs : List NukeState) :
    List NukeState × List Effect :=
  let inited := execs.map fun e => if e.inited then e else NukeExecution.init env e
  let stepped := inited.map fun e =>
    if e.active then NukeExecution.tick env e else (e, [])
  ((stepped.map Prod.fst).filter fun e => e.active,
   (stepped.map Prod.snd).flatten)

/-- Run the scheduler over successive ticks, each with its own observed
world environment, collecting all effects. -/
def Game.runTicks : List Env → List NukeState → List NukeState × List Effect
  | [], es => (es, [])
  | env :: envs, es =>
    let step := Game.executeNextTick env es
    let rest := Game.runTicks envs step.1
    (rest.1, step.2 ++ rest.2)

/-- Modelled from the spec: §4.5 Alliance-acceptance cancellation — on
acceptance of an alliance between two players, destroy every strike of one
targeting a tile owned by the other (via the execution's own
`destroyInFlight`, which is among the sources), and report counts split by
phase (`Game.destroyNukesBetween` is not among the provided sources). -/
def Game.destroyNukesBetween (env : Env) (p1 p2 : PlayerId) :
    List NukeState → List NukeState × Nat × Nat × List Effect
  | [] => ([], 0, 0, [])
  | e :: es =>
    let r := Game.destroyNukesBetween env p1 p2 es
    if (e.player = p1 ∧ env.owner e.dst = some p2) ∨
       (e.player = p2 ∧ env.owner e.dst = some p1) then
      let d := NukeExecution.destroyInFlight e
      if e.nuke.isNone then
        (d.1 :: r.1, r.2.1 + 1, r.2.2.1, d.2 ++ r.2.2.2)
      else
        (d.1 :: r.1, r.2.1, r.2.2.1 + 1, d.2 ++ r.2.2.2)
    else (e :: r.1, r.2.1, r.2.2.1, r.2.2.2)

/-- The operations an execution is subjected to over its lifetime, for the
monotonicity invariant: initialization, a scheduler tick against some
observed world, and forced external cancellation.  Detonation and launch
refusal are paths inside `tick`. -/
inductive NukeOp where
  | init (env : Env)
  | tick (env : Env)
  | destroy

/-- Apply one lifecycle operation to an execution state. -/
def NukeOp.apply (s : NukeState) : NukeOp → NukeState
  | NukeOp.init env => NukeExecution.init env s
  | NukeOp.tick env => (NukeExecution.tick env s).1
  | NukeOp.destroy => (NukeExecution.destroyInFlight s).1

/-- A small concrete world used to instantiate the theorems: four tiles in
a row, every tile owned by player 2, an alliance and a pending request
between players 1 and 2, and launch sites always resolvable at tile 0. -/
def wEnv : Env where
  tiles := [0, 1, 2, 3]
  neighbors := fun t =>
    if t = 0 then [1] else if t = 1 then [0, 2] else if t = 2 then [1, 3] else [2]
  dist2 := fun a b => (((a : Int) - (b : Int)).natAbs) ^ 2
  owner := fun _ => some 2
  isLand := fun _ => true
  ticks := 7
  defaultNukeSpeed := 4
  nukeMagnitudes := fun _ => ⟨2, 3⟩
  nukeAllianceBreakThreshold := 0
  defaultNukeTargetableRange := 5
  incomingAllianceRequests := fun p => if p = 2 then [1] else []
  hasAllianceWith := fun a b => decide ((a = 1 ∧ b = 2) ∨ (a = 2 ∧ b = 1))
  canBuild := fun _ _ => some 0
  computePath := fun a b _ _ => [a, b]
  units := []
  unitActive := fun _ => true
  nextUnitId := 42
  playerTroops := fun _ => 100
  numTilesOwned := fun _ => 2
  maxTroops := fun _ => 1000
  nukeDeathFactor := fun _ t _ _ => t / 2
  outgoingAttacks := fun _ => []
  playerName := fun p => if p = 1 then "player one" else "player two"

/-- `wEnv` with no resolvable launch site. -/
def wEnvNoBuild : Env := { wEnv with canBuild := fun _ _ => none }

/-- `wEnv` in which every unit has been deactivated (intercepted). -/
def wEnvIntercept : Env := { wEnv with unitActive := fun _ => false }

/-- A queued strike of player 1 on tile 0 (owned by player 2). -/
def qFix : NukeState := NukeExecution.mkExec UnitType.AtomBomb 1 0 none (-1) 0

/-- The strike's spawned unit in the in-flight fixtures. -/
def uFix : UnitInfo := ⟨42, UnitType.AtomBomb, 0, some 0⟩

/-- An in-flight strike holding `uFix`. -/
def sInFlight : NukeState :=
  { qFix with nuke := some uFix, path := [0, 0], pathIndex := 0, speed := 1, src := some 0 }

/-- An in-flight strike still throttled by two wait ticks. -/
def sWait : NukeState := { sInFlight with waitTicks := 2 }

/-- A queued MIRV-warhead strike of player 1 on tile 0 (owned by player 2):
its launch notifies the statistics sink but emits no inbound alert. -/
def cexC7 : NukeState := NukeExecution.mkExec UnitType.MIRVWarhead 1 0 none 4 0

/-- Is the effect an incoming-weapon display event? -/
def Effect.isDisplayFx : Effect → Bool
  | Effect.display _ _ _ _ => true
  | _ => false

/-- Is the effect a launch notification to the statistics sink? -/
def Effect.isBombLaunchFx : Effect → Bool
  | Effect.statsBombLaunch _ _ _ => true
  | _ => false

theorem flatten_map_of_mem {α β : Type} {l : List α} (f : α → List β) {a : α}
    (h : a ∈ l) : ∃ pre post, (l.map f).flatten = pre ++ f a ++ post := by
  induction l with
  | nil => cases h
  | cons b t ih =>
    rcases List.mem_cons.mp h with h1 | h2
    · exact ⟨[], (t.map f).flatten, by simp [h1]⟩
    · obtain ⟨pre, post, hp⟩ := ih h2
      exact ⟨f b ++ pre, post, by simp [hp]⟩

theorem gameBfsAdmit_sound {pred : PseudoRandom → TileRef → Bool × PseudoRandom}
    {ns visited : List TileRef} {r : PseudoRandom} {x : TileRef}
    (h : x ∈ (gameBfsAdmit pred ns visited r).1) :
    ∃ r0, (pred r0 x).1 = true := by
  induction ns generalizing visited r with
  | nil => simp [gameBfsAdmit] at h
  | cons n ns ih =>
    unfold gameBfsAdmit at h
    by_cases hv : n ∈ visited
    · rw [if_pos hv] at h
      exact ih h
    · rw [if_neg hv] at h
      by_cases hp : (pred r n).1 = true
      · rw [if_pos hp] at h
        rcases List.mem_cons.mp h with h1 | h2
        · exact ⟨r, h1 ▸ hp⟩
        · exact ih h2
      · rw [if_neg hp] at h
        exact ih h
  
theorem gameBfsAux_sound {env : Env} {pred : PseudoRandom → TileRef → Bool × PseudoRandom}
    {fuel : Nat} {queue visited : List TileRef} {r : PseudoRandom} {x : TileRef}
    (h : x ∈ gameBfsAux env pred fuel queue visited r) :
    x ∈ visited ∨ ∃ r0, (pred r0 x).1 = true := by
  induction fuel generalizing queue visited r with
  | zero =>
    unfold gameBfsAux at h
    exact Or.inl h
  | succ fuel ih =>
    cases queue with
    | nil =>
      unfold gameBfsAux at h
      exact Or.inl h
    | cons t q =>
      unfold gameBfsAux at h
      rcases ih h with hv | hp
      · rcases List.mem_append.mp hv with h1 | h2
        · exact Or.inl h1
        · exact Or.inr (gameBfsAdmit_sound h2)
      · exact Or.inr hp

theorem gameBfs_sound {env : Env} {start : TileRef}
    {pred : PseudoRandom → TileRef → Bool × PseudoRandom} {r : PseudoRandom} {x : TileRef}
    (h : x ∈ gameBfs env start pred r) :
    x = start ∨ ∃ r0, (pred r0 x).1 = true := by
  unfold gameBfs at h
  rcases gameBfsAux_sound h with hv | hp
  · exact Or.inl (List.mem_singleton.mp hv)
  · exact Or.inr hp

theorem destroyFilter_outer {env : Env} {dst : TileRef} {mag : Magnitude}
    {r : PseudoRandom} {n : TileRef}
    (h : (NukeExecution.destroyFilter env dst mag r n).1 = true) :
    env.dist2 dst n ≤ mag.outer * mag.outer := by
  unfold NukeExecution.destroyFilter at h
  by_cases ho : env.dist2 dst n ≤ mag.outer * mag.outer
  · exact ho
  · rw [if_neg ho] at h
    cases h

theorem tilesToDestroyCompute_within {env : Env} {dst : TileRef} {utype : UnitType}
    {x : TileRef} (h : x ∈ NukeExecution.tilesToDestroyCompute env dst utype)
    (hz : env.dist2 dst dst = 0) :
    env.dist2 dst x ≤ (env.nukeMagnitudes utype).outer * (env.nukeMagnitudes utype).outer := by
  unfold NukeExecution.tilesToDestroyCompute at h
  rcases gameBfs_sound h with h1 | ⟨r0, h2⟩
  · subst h1
    rw [hz]
    exact Nat.zero_le _
  · exact destroyFilter_outer h2

theorem tick_refused {env : Env} {s : NukeState} (hq : s.nuke = none)
    (hb : env.canBuild s.nukeType s.dst = none) :
    NukeExecution.tick env s = ({ s with active := false }, [Effect.warn "cannot build Nuke"]) := by
  unfold NukeExecution.tick
  rw [hq, hb]

theorem tick_launch {env : Env} {s : NukeState} {spawn : TileRef} (hq : s.nuke = none)
    (hb : env.canBuild s.nukeType s.dst = some spawn) :
    NukeExecution.tick env s = NukeExecution.launch env s spawn := by
  unfold NukeExecution.tick
  rw [hq, hb]

theorem tick_intercepted {env : Env} {s : NukeState} {u : UnitInfo} (hn : s.nuke = some u)
    (hi : env.unitActive u.id = false) :
    NukeExecution.tick env s =
      ({ s with active := false }, [Effect.logInfo "Nuke destroyed before reaching target"]) := by
  unfold NukeExecution.tick
  rw [hn]
  simp [hi]

theorem tick_wait {env : Env} {s : NukeState} {u : UnitInfo} (hn : s.nuke = some u)
    (ha : env.unitActive u.id = true) (hw : 0 < s.waitTicks) :
    NukeExecution.tick env s = ({ s with waitTicks := s.waitTicks - 1 }, []) := by
  unfold NukeExecution.tick
  rw [hn]
  simp [ha, hw]

theorem launch_active {env : Env} {s : NukeState} {spawn : TileRef} :
    (NukeExecution.launch env s spawn).1.active = s.active := rfl

theorem detonate_inactive {env : Env} {s : NukeState} {u : UnitInfo} :
    (NukeExecution.detonate env s u).1.active = false := rfl

theorem tick_preserves_inactive {env : Env} {s : NukeState} (h : s.active = false) :
    (NukeExecution.tick env s).1.active = false := by
  unfold NukeExecution.tick
  cases hn : s.nuke with
  | none =>
    cases hb : env.canBuild s.nukeType s.dst with
    | none => rfl
    | some spawn => exact launch_active.trans h
  | some u =>
    by_cases hi : env.unitActive u.id = false
    · simp [hi]
    · simp only [hi, if_false]
      by_cases hw : 0 < s.waitTicks
      · simp [hw, h]
      · simp only [hw, if_false]
        cases ht : NukeExecution.nextTileStep s.path s.pathIndex s.speed with
        | none => exact detonate_inactive
        | some ti => exact h

theorem destroyInFlight_inactive (s : NukeState) :
    (NukeExecution.destroyInFlight s).1.active = false := by
  unfold NukeExecution.destroyInFlight
  by_cases h : s.active = false
  · rw [if_pos h]
    exact h
  · rw [if_neg h]
    cases hn : s.nuke <;> rfl

theorem destroyInFlight_queued {s : NukeState} (hq : s.nuke = none) :
    (NukeExecution.destroyInFlight s).1.nuke = none := by
  unfold NukeExecution.destroyInFlight
  by_cases h : s.active = false
  · rw [if_pos h]
    exact hq
  · rw [if_neg h, hq]

theorem executeNextTick_nil (env : Env) : Game.executeNextTick env [] = ([], []) := rfl

theorem runTicks_nil_execs (envs : List Env) : Game.runTicks envs [] = ([], []) := by
  induction envs with
  | nil => rfl
  | cons env envs ih => simp [Game.runTicks, executeNextTick_nil, ih]

theorem init_active (env : Env) (s : NukeState) :
    (NukeExecution.init env s).active = s.active := rfl

theorem executeNextTick_inactive {env : Env} {s : NukeState} (h : s.active = false) :
    Game.executeNextTick env [s] = ([], []) := by
  unfold Game.executeNextTick
  have hi : (if s.inited then s else NukeExecution.init env s).active = false := by
    split
    · exact h
    · exact (init_active env s).trans h
  simp [hi]

theorem runTicks_inactive {s : NukeState} (h : s.active = false) (envs : List Env) :
    (Game.runTicks envs [s]).2 = [] ∧ (envs = [] ∨ (Game.runTicks envs [s]).1 = []) := by
  cases envs with
  | nil => exact ⟨rfl, Or.inl rfl⟩
  | cons env envs =>
    constructor
    · simp [Game.runTicks, executeNextTick_inactive h, runTicks_nil_execs]
    · right
      simp [Game.runTicks, executeNextTick_inactive h, runTicks_nil_execs]

theorem blastWeight_pos_mem {env : Env} {dst : TileRef} {utype : UnitType} {p : PlayerId}
    (h : 0 < NukeExecution.blastWeight env dst utype p) :
    ∃ tw, tw ∈ NukeExecution.tilesInRange env dst utype ∧ env.owner tw.1 = some p := by
  unfold NukeExecution.blastWeight at h
  cases hfe : (NukeExecution.tilesInRange env dst utype).filter
      (fun tw => decide (env.owner tw.1 = some p)) with
  | nil =>
    rw [hfe] at h
    simp at h
  | cons hd tl =>
    have hhd : hd ∈ (NukeExecution.tilesInRange env dst utype).filter
        (fun tw => decide (env.owner tw.1 = some p)) := by
      rw [hfe]
      exact List.mem_cons_self hd tl
    have hm := List.mem_filter.mp hhd
    exact ⟨hd, hm.1, of_decide_eq_true hm.2⟩

theorem mem_attackedPlayers {env : Env} {inRange : List (TileRef × ℚ)} {p : PlayerId}
    {tw : TileRef × ℚ} (htw : tw ∈ inRange) (ho : env.owner tw.1 = some p) :
    p ∈ NukeExecution.attackedPlayers env inRange := by
  unfold NukeExecution.attackedPlayers
  rw [List.mem_dedup]
  exact List.mem_filterMap.mpr ⟨tw, htw, ho⟩

theorem allianceSideEffects_fired {env : Env} {attacker : PlayerId} {utype : UnitType}
    {w : PlayerId → ℚ} {p : PlayerId}
    (hw : env.nukeAllianceBreakThreshold < w p) (hm : utype ≠ UnitType.MIRVWarhead) :
    NukeExecution.allianceSideEffects env attacker utype w p =
      (if attacker ∈ env.incomingAllianceRequests p then
         [Effect.rejectAllianceRequest attacker p] else [])
      ++ (if env.hasAllianceWith attacker p then [Effect.breakAlliance attacker p] else [])
      ++ (if p ≠ attacker then [Effect.updateRelation p attacker (-100)] else []) := by
  unfold NukeExecution.allianceSideEffects
  rw [if_pos ⟨hw, hm⟩]

theorem maybeBreakAlliances_split {env : Env} (attacker : PlayerId) {utype : UnitType}
    {dst : TileRef} {p : PlayerId}
    (hmem : p ∈ NukeExecution.attackedPlayers env (NukeExecution.tilesInRange env dst utype)) :
    ∃ pre post,
      NukeExecution.maybeBreakAlliances env attacker utype
          (NukeExecution.tilesInRange env dst utype) =
        pre ++ NukeExecution.allianceSideEffects env attacker utype
          (NukeExecution.blastWeight env dst utype) p ++ post := by
  unfold NukeExecution.maybeBreakAlliances
  exact flatten_map_of_mem
    (NukeExecution.allianceSideEffects env attacker utype
      (NukeExecution.blastWeight env dst utype)) hmem

/-- C2: at launch (the tick the unit is spawned), every player whose
accumulated tile-weighted blast estimate (1 inside the inner radius, 1/2
between inner and outer) exceeds the configured threshold has — for
non-MIRV-warhead weapon classes — a pending inbound request from the
attacker rejected first, then an existing alliance with the attacker
broken, then (when distinct from the attacker) their relation to the
attacker degraded by the fixed penalty of 100, contiguously in that
order among the tick's effects. -/
theorem c2_launch_breaks_alliances (env : Env) (s : NukeState) (p : PlayerId) (spawn : TileRef)
    (hq : s.nuke = none)
    (hb : env.canBuild s.nukeType s.dst = some spawn)
    (hm : s.nukeType ≠ UnitType.MIRVWarhead)
    (hth : 0 ≤ env.nukeAllianceBreakThreshold)
    (hw : env.nukeAllianceBreakThreshold < NukeExecution.blastWeight env s.dst s.nukeType p) :
    ∃ pre post, (NukeExecution.tick env s).2 =
      pre ++ ((if s.player ∈ env.incomingAllianceRequests p then
                 [Effect.rejectAllianceRequest s.player p] else [])
        ++ (if env.hasAllianceWith s.player p then [Effect.breakAlliance s.player p] else [])
        ++ (if p ≠ s.player then [Effect.updateRelation p s.player (-100)] else [])) ++ post := by
  obtain ⟨tw, htw, how⟩ := blastWeight_pos_mem (lt_of_le_of_lt hth hw)
  obtain ⟨pre0, post0, hsplit⟩ := maybeBreakAlliances_split s.player
    (mem_attackedPlayers htw how)
  rw [allianceSideEffects_fired hw hm] at hsplit
  have hA : NukeExecution.launchAllianceFx env s =
      NukeExecution.maybeBreakAlliances env s.player s.nukeType
        (NukeExecution.tilesInRange env s.dst s.nukeType) := by
    unfold NukeExecution.launchAllianceFx
    rw [if_pos hm]
  rw [tick_launch hq hb]
  unfold NukeExecution.launch
  refine ⟨NukeExecution.launchBuildFx env s spawn ++ pre0,
    post0 ++ NukeExecution.launchAlertFx env s (NukeExecution.launchUnit env s spawn).id
      ++ NukeExecution.launchSiloFx env s spawn, ?_⟩
  rw [hA, hsplit]
  simp [List.append_assoc]

/-- C1: a queued strike (no unit yet) marked inactive by the
alliance-acceptance cancellation between its owner and the destination
tile's owner never launches: the cancelled execution is inactive with no
unit, on every subsequent scheduler tick no effect fires (in particular no
unit is ever built), and it is evicted from the scheduler on the first
subsequent pass. -/
theorem c1_cancelled_queued_strike_never_launches (env : Env) (q : NukeState) (p2 : PlayerId)
    (hq : q.nuke = none) (ho : env.owner q.dst = some p2) :
    (Game.destroyNukesBetween env q.player p2 [q]).1 =
        [(NukeExecution.destroyInFlight q).1] ∧
    (NukeExecution.destroyInFlight q).1.active = false ∧
    (NukeExecution.destroyInFlight q).1.nuke = none ∧
    ∀ envs : List Env,
      (Game.runTicks envs [(NukeExecution.destroyInFlight q).1]).2 = [] ∧
      (envs = [] ∨ (Game.runTicks envs [(NukeExecution.destroyInFlight q).1]).1 = []) := by
  refine ⟨?_, destroyInFlight_inactive q, destroyInFlight_queued hq, fun envs =>
    runTicks_inactive (destroyInFlight_inactive q) envs⟩
  simp [Game.destroyNukesBetween, ho, hq]

/-- C3: with no cache yet and the unit spawned, the destroyed-tile set is
exactly the breadth-first expansion from the destination under the
outer/inner/1-in-2 admission filter seeded by the current tick; every tile
of it lies within the outer radius of the destination, and any execution
with the same destination and weapon class computes the same set in the
same world. -/
theorem c3_destroyed_set_is_bfs (env : Env) (s : NukeState) (u : UnitInfo)
    (hc : s.tilesToDestroyCache = none) (hn : s.nuke = some u)
    (hz : env.dist2 s.dst s.dst = 0) :
    NukeExecution.tilesToDestroy env s =
      some (NukeExecution.tilesToDestroyCompute env s.dst u.utype,
        { s with
          tilesToDestroyCache := some (NukeExecution.tilesToDestroyCompute env s.dst u.utype) }) ∧
    (∀ t ∈ NukeExecution.tilesToDestroyCompute env s.dst u.utype,
        env.dist2 s.dst t ≤
          (env.nukeMagnitudes u.utype).outer * (env.nukeMagnitudes u.utype).outer) ∧
    ∀ s2 : NukeState, ∀ u2 : UnitInfo, ∀ ts2 : List TileRef, ∀ st2 : NukeState,
      s2.tilesToDestroyCache = none → s2.nuke = some u2 → s2.dst = s.dst →
      u2.utype = u.utype → NukeExecution.tilesToDestroy env s2 = some (ts2, st2) →
      ts2 = NukeExecution.tilesToDestroyCompute env s.dst u.utype := by
  refine ⟨?_, fun t ht => tilesToDestroyCompute_within ht hz, ?_⟩
  · unfold NukeExecution.tilesToDestroy
    rw [hc, hn]
  · intro s2 u2 ts2 st2 hc2 hn2 hd2 hu2 h2
    unfold NukeExecution.tilesToDestroy at h2
    rw [hc2, hn2] at h2
    simp only [Option.some.injEq, Prod.mk.injEq] at h2
    rw [← hd2, ← hu2]
    exact h2.1.symm

/-- C4: once the destroyed-tile set has been computed (a successful
`tilesToDestroy` query), querying again on the resulting state returns the
identical cached set and leaves the state unchanged — the computation runs
at most once per execution. -/
theorem c4_destroyed_set_cached (env : Env) (s : NukeState) (ts : List TileRef)
    (s2 : NukeState) (h : NukeExecution.tilesToDestroy env s = some (ts, s2)) :
    NukeExecution.tilesToDestroy env s2 = some (ts, s2) := by
  unfold NukeExecution.tilesToDestroy at h ⊢
  cases hc : s.tilesToDestroyCache with
  | some c =>
    rw [hc] at h
    simp only [Option.some.injEq, Prod.mk.injEq] at h
    obtain ⟨h1, h2⟩ := h
    subst h2
    rw [hc, h1]
  | none =>
    rw [hc] at h
    cases hn : s.nuke with
    | none =>
      rw [hn] at h
      cases h
    | some u =>
      rw [hn] at h
      simp only [Option.some.injEq, Prod.mk.injEq] at h
      obtain ⟨h1, h2⟩ := h
      subst h2
      simp [h1]

/-- C5: when no unit exists yet and the owning player cannot resolve a
launch site, the tick logs only a warning and makes the execution inactive
with its state otherwise untouched — no unit is built, no diplomacy or
statistics effect fires, and no effect ever fires on later scheduler
ticks. -/
theorem c5_launch_refused_terminal (env : Env) (s : NukeState)
    (hq : s.nuke = none) (hb : env.canBuild s.nukeType s.dst = none) :
    NukeExecution.tick env s = ({ s with active := false }, [Effect.warn "cannot build Nuke"]) ∧
    ∀ envs : List Env, (Game.runTicks envs [(NukeExecution.tick env s).1]).2 = [] := by
  have ht := tick_refused hq hb
  refine ⟨ht, fun envs => ?_⟩
  rw [ht]
  exact (runTicks_inactive rfl envs).1

/-- C6: when the spawned unit has been deactivated by an external actor,
the tick only logs the interception and makes the execution inactive —
no detonation effect (relinquish, troop removal, fallout, collateral
deletion, impact statistics) fires on that tick, and no effect at all
fires on any later scheduler tick. -/
theorem c6_interception_cancels (env : Env) (s : NukeState) (u : UnitInfo)
    (hn : s.nuke = some u) (hi : env.unitActive u.id = false) :
    NukeExecution.tick env s =
      ({ s with active := false }, [Effect.logInfo "Nuke destroyed before reaching target"]) ∧
    ∀ envs : List Env, (Game.runTicks envs [(NukeExecution.tick env s).1]).2 = [] := by
  have ht := tick_intercepted hn hi
  refine ⟨ht, fun envs => ?_⟩
  rw [ht]
  exact (runTicks_inactive rfl envs).1

theorem launchAlertFx_stats {env : Env} {s : NukeState} {uid : Nat} {target : PlayerId}
    (hot : env.owner s.dst = some target) :
    Effect.statsBombLaunch s.player (some target) s.nukeType ∈
      NukeExecution.launchAlertFx env s uid := by
  unfold NukeExecution.launchAlertFx Env.hasOwner
  rw [hot]
  simp

theorem launchAlertFx_displayAtom {env : Env} {s : NukeState} {uid : Nat} {target : PlayerId}
    (hot : env.owner s.dst = some target) (ha : s.nukeType = UnitType.AtomBomb) :
    Effect.display uid MessageType.NUKE_INBOUND
        (env.playerName s.player ++ " - atom bomb inbound") target ∈
      NukeExecution.launchAlertFx env s uid := by
  unfold NukeExecution.launchAlertFx Env.hasOwner
  rw [hot, ha]
  simp

theorem launchAlertFx_displayHydrogen {env : Env} {s : NukeState} {uid : Nat} {target : PlayerId}
    (hot : env.owner s.dst = some target) (ha : s.nukeType = UnitType.HydrogenBomb) :
    Effect.display uid MessageType.HYDROGEN_BOMB_INBOUND
        (env.playerName s.player ++ " - hydrogen bomb inbound") target ∈
      NukeExecution.launchAlertFx env s uid := by
  unfold NukeExecution.launchAlertFx Env.hasOwner
  rw [hot, ha]
  simp

theorem launchAlertFx_noOwner {env : Env} {s : NukeState} {uid : Nat}
    (hot : env.owner s.dst = none) :
    NukeExecution.launchAlertFx env s uid = [] := by
  unfold NukeExecution.launchAlertFx Env.hasOwner
  rw [hot]
  rfl

theorem allianceSideEffects_shapes {env : Env} {attacker : PlayerId} {utype : UnitType}
    {w : PlayerId → ℚ} {p : PlayerId} {e : Effect}
    (he : e ∈ NukeExecution.allianceSideEffects env attacker utype w p) :
    e.isDisplayFx = false ∧ e.isBombLaunchFx = false := by
  unfold NukeExecution.allianceSideEffects at he
  split at he
  · rcases List.mem_append.mp he with h1 | h2
    · rcases List.mem_append.mp h1 with h3 | h4
      · split at h3
        · rw [List.mem_singleton] at h3
          subst h3
          exact ⟨rfl, rfl⟩
        · cases h3
      · split at h4
        · rw [List.mem_singleton] at h4
          subst h4
          exact ⟨rfl, rfl⟩
        · cases h4
    · split at h2
      · rw [List.mem_singleton] at h2
        subst h2
        exact ⟨rfl, rfl⟩
      · cases h2
  · cases he

theorem launchAllianceFx_shapes {env : Env} {s : NukeState} {e : Effect}
    (he : e ∈ NukeExecution.launchAllianceFx env s) :
    e.isDisplayFx = false ∧ e.isBombLaunchFx = false := by
  unfold NukeExecution.launchAllianceFx at he
  split at he
  · unfold NukeExecution.maybeBreakAlliances at he
    rw [List.mem_flatten] at he
    obtain ⟨l, hl, hel⟩ := he
    rw [List.mem_map] at hl
    obtain ⟨p, _, rfl⟩ := hl
    exact allianceSideEffects_shapes hel
  · cases he

theorem launchSiloFx_shapes {env : Env} {s : NukeState} {spawn : TileRef} {e : Effect}
    (he : e ∈ NukeExecution.launchSiloFx env s spawn) :
    e.isDisplayFx = false ∧ e.isBombLaunchFx = false := by
  unfold NukeExecution.launchSiloFx at he
  split at he
  · rw [List.mem_singleton] at he
    subst he
    exact ⟨rfl, rfl⟩
  · cases he

theorem launchAlertFx_no_display_other {env : Env} {s : NukeState} {uid : Nat}
    (ha : s.nukeType ≠ UnitType.AtomBomb) (hh : s.nukeType ≠ UnitType.HydrogenBomb) :
    ∀ e ∈ NukeExecution.launchAlertFx env s uid, e.isDisplayFx = false := by
  intro e he
  unfold NukeExecution.launchAlertFx at he
  split at he
  · rcases List.mem_append.mp he with h1 | h2
    · exfalso
      cases ho : env.owner s.dst with
      | some target =>
        rw [ho] at h1
        revert h1
        cases hnt : s.nukeType <;> intro h1 <;>
          first
            | exact ha hnt
            | exact hh hnt
            | exact List.not_mem_nil e h1
      | none =>
        rw [ho] at h1
        exact List.not_mem_nil e h1
    · rw [List.mem_singleton] at h2
      subst h2
      rfl
  · cases he

/-- C7 (amended): on the launch tick, when the destination tile is owned
by a player, the statistics sink is always notified of the launch, and
the inbound display alert is emitted for the atom bomb and the hydrogen
bomb weapon classes and ONLY for those — every other weapon class emits
no display event at all on its launch tick; when the destination has no
player owner, neither a display alert nor a launch-statistics effect
fires. -/
theorem c7_launch_alert_and_stats (env : Env) (s : NukeState) (spawn : TileRef)
    (hq : s.nuke = none) (hb : env.canBuild s.nukeType s.dst = some spawn) :
    (∀ target : PlayerId, env.owner s.dst = some target →
      Effect.statsBombLaunch s.player (some target) s.nukeType ∈ (NukeExecution.tick env s).2 ∧
      (s.nukeType = UnitType.AtomBomb →
        Effect.display env.nextUnitId MessageType.NUKE_INBOUND
          (env.playerName s.player ++ " - atom bomb inbound") target ∈
            (NukeExecution.tick env s).2) ∧
      (s.nukeType = UnitType.HydrogenBomb →
        Effect.display env.nextUnitId MessageType.HYDROGEN_BOMB_INBOUND
          (env.playerName s.player ++ " - hydrogen bomb inbound") target ∈
            (NukeExecution.tick env s).2)) ∧
    (env.owner s.dst = none →
      ∀ e ∈ (NukeExecution.tick env s).2, e.isDisplayFx = false ∧ e.isBombLaunchFx = false) ∧
    (s.nukeType ≠ UnitType.AtomBomb → s.nukeType ≠ UnitType.HydrogenBomb →
      ∀ e ∈ (NukeExecution.tick env s).2, e.isDisplayFx = false) := by
  rw [tick_launch hq hb]
  unfold NukeExecution.launch
  refine ⟨?_, ?_, ?_⟩
  · intro target hot
    refine ⟨?_, fun ha => ?_, fun ha => ?_⟩
    · exact List.mem_append_left _ (List.mem_append_right _ (launchAlertFx_stats hot))
    · exact List.mem_append_left _ (List.mem_append_right _ (launchAlertFx_displayAtom hot ha))
    · exact List.mem_append_left _ (List.mem_append_right _ (launchAlertFx_displayHydrogen hot ha))
  · intro hot e he
    rw [launchAlertFx_noOwner hot] at he
    rcases List.mem_append.mp he with h1 | h2
    · rcases List.mem_append.mp h1 with h3 | h4
      · rcases List.mem_append.mp h3 with h5 | h6
        · rw [NukeExecution.launchBuildFx, List.mem_singleton] at h5
          subst h5
          exact ⟨rfl, rfl⟩
        · exact launchAllianceFx_shapes h6
      · cases h4
    · exact launchSiloFx_shapes h2
  · intro ha hh e he
    rcases List.mem_append.mp he with h1 | h2
    · rcases List.mem_append.mp h1 with h3 | h4
      · rcases List.mem_append.mp h3 with h5 | h6
        · rw [NukeExecution.launchBuildFx, List.mem_singleton] at h5
          subst h5
          rfl
        · exact (launchAllianceFx_shapes h6).1
      · exact launchAlertFx_no_display_other ha hh e h4
    · exact (launchSiloFx_shapes h2).1

/-- C8: inactivity is monotonic — over any sequence of lifecycle
operations (initialization, scheduler ticks against arbitrary worlds,
forced cancellation; detonation and launch refusal are tick paths), an
execution that is inactive stays inactive. -/
theorem c8_inactive_monotone (ops : List NukeOp) (s : NukeState) (h : s.active = false) :
    (ops.foldl NukeOp.apply s).active = false := by
  induction ops generalizing s with
  | nil => exact h
  | cons op ops ih =>
    rw [List.foldl_cons]
    apply ih
    cases op with
    | init env => exact (init_active env s).trans h
    | tick env => exact tick_preserves_inactive h
    | destroy => exact destroyInFlight_inactive s

/-- C9: on an in-flight tick with the unit still active and a positive
wait-tick counter, the tick decrements the counter by one and changes
nothing else — no effect fires, the unit does not move, the trajectory
index, targetable flag and activity are untouched. -/
theorem c9_wait_tick_throttles (env : Env) (s : NukeState) (u : UnitInfo)
    (hn : s.nuke = some u) (ha : env.unitActive u.id = true) (hw : 0 < s.waitTicks) :
    NukeExecution.tick env s = ({ s with waitTicks := s.waitTicks - 1 }, []) :=
  tick_wait hn ha hw

/-- C10: `destroyInFlight` on an active execution makes it inactive,
deletes the spawned unit when one exists (and fires nothing when none
does) and clears the unit reference so `isInFlight` is false; on an
inactive execution it changes nothing, so a second consecutive call is
always a no-op. -/
theorem c10_destroyInFlight_idempotent (s : NukeState) :
    (s.active = true →
      (NukeExecution.destroyInFlight s).1.active = false ∧
      NukeExecution.isInFlight (NukeExecution.destroyInFlight s).1 = false ∧
      (∀ u : UnitInfo, s.nuke = some u →
        (NukeExecution.destroyInFlight s).2 = [Effect.deleteUnit u.id false none]) ∧
      (s.nuke = none → (NukeExecution.destroyInFlight s).2 = [])) ∧
    (s.active = false → NukeExecution.destroyInFlight s = (s, [])) ∧
    NukeExecution.destroyInFlight (NukeExecution.destroyInFlight s).1 =
      ((NukeExecution.destroyInFlight s).1, []) := by
  have hinact : ∀ x : NukeState, x.active = false →
      NukeExecution.destroyInFlight x = (x, []) := by
    intro x hx
    unfold NukeExecution.destroyInFlight
    rw [if_pos hx]
  refine ⟨?_, hinact s, hinact _ (destroyInFlight_inactive s)⟩
  intro ha
  have hna : ¬ s.active = false := by simp [ha]
  refine ⟨destroyInFlight_inactive s, ?_, fun u hn => ?_, fun hn => ?_⟩
  · unfold NukeExecution.isInFlight NukeExecution.destroyInFlight
    rw [if_neg hna]
    cases hn : s.nuke
    · rfl
    · rfl
  · unfold NukeExecution.destroyInFlight
    rw [if_neg hna, hn]
  · unfold NukeExecution.destroyInFlight
    rw [if_neg hna, hn]

theorem c1_witness :
    (Game.destroyNukesBetween wEnv 1 2 [qFix]).1 = [(NukeExecution.destroyInFlight qFix).1] ∧
    (NukeExecution.destroyInFlight qFix).1.active = false ∧
    (NukeExecution.destroyInFlight qFix).1.nuke = none ∧
    (Game.runTicks [wEnv, wEnv, wEnv] [(NukeExecution.destroyInFlight qFix).1]).2 = [] ∧
    (Game.runTicks [wEnv, wEnv, wEnv] [(NukeExecution.destroyInFlight qFix).1]).1 = [] := by
  obtain ⟨h1, h2, h3, h4⟩ := c1_cancelled_queued_strike_never_launches wEnv qFix 2 rfl rfl
  have h5 := h4 [wEnv, wEnv, wEnv]
  exact ⟨h1, h2, h3, h5.1, h5.2.resolve_left (by simp)⟩

theorem c2_witness :
    Effect.rejectAllianceRequest 1 2 ∈ (NukeExecution.tick wEnv qFix).2 ∧
    Effect.breakAlliance 1 2 ∈ (NukeExecution.tick wEnv qFix).2 ∧
    Effect.updateRelation 2 1 (-100) ∈ (NukeExecution.tick wEnv qFix).2 := by
  have hw : wEnv.nukeAllianceBreakThreshold <
      NukeExecution.blastWeight wEnv qFix.dst qFix.nukeType 2 := by
    norm_num [NukeExecution.blastWeight, NukeExecution.tilesInRange, wEnv, qFix,
      NukeExecution.mkExec, List.filter_cons, List.filter_nil, List.map_cons,
      List.map_nil, List.sum_cons, List.sum_nil]
  obtain ⟨pre, post, h⟩ := c2_launch_breaks_alliances wEnv qFix 2 0 rfl rfl
    (by decide) (le_rfl) hw
  rw [h]
  refine ⟨?_, ?_, ?_⟩ <;>
    exact List.mem_append_left _ (List.mem_append_right _ (by decide))

theorem c3_witness :
    NukeExecution.tilesToDestroy wEnv sInFlight =
      some (NukeExecution.tilesToDestroyCompute wEnv sInFlight.dst UnitType.AtomBomb,
        { sInFlight with
          tilesToDestroyCache :=
            some (NukeExecution.tilesToDestroyCompute wEnv sInFlight.dst UnitType.AtomBomb) }) ∧
    ((NukeExecution.tilesToDestroyCompute wEnv sInFlight.dst UnitType.AtomBomb).all
      fun t => decide (wEnv.dist2 sInFlight.dst t ≤ 9)) = true := by
  obtain ⟨h1, h2, h3⟩ := c3_destroyed_set_is_bfs wEnv sInFlight uFix rfl rfl (by decide)
  refine ⟨h1, ?_⟩
  rw [List.all_eq_true]
  intro t ht
  exact decide_eq_true (h2 t ht)

theorem c4_witness :
    NukeExecution.tilesToDestroy wEnv
        { sInFlight with
          tilesToDestroyCache :=
            some (NukeExecution.tilesToDestroyCompute wEnv sInFlight.dst UnitType.AtomBomb) } =
      some (NukeExecution.tilesToDestroyCompute wEnv sInFlight.dst UnitType.AtomBomb,
        { sInFlight with
          tilesToDestroyCache :=
            some (NukeExecution.tilesToDestroyCompute wEnv sInFlight.dst UnitType.AtomBomb) }) :=
  c4_destroyed_set_cached wEnv sInFlight _ _ rfl

theorem c5_witness :
    NukeExecution.tick wEnvNoBuild qFix =
      ({ qFix with active := false }, [Effect.warn "cannot build Nuke"]) ∧
    (Game.runTicks [wEnvNoBuild, wEnvNoBuild] [(NukeExecution.tick wEnvNoBuild qFix).1]).2 = [] := by
  obtain ⟨h1, h2⟩ := c5_launch_refused_terminal wEnvNoBuild qFix rfl rfl
  exact ⟨h1, h2 _⟩

theorem c6_witness :
    NukeExecution.tick wEnvIntercept sInFlight =
      ({ sInFlight with active := false },
        [Effect.logInfo "Nuke destroyed before reaching target"]) ∧
    (Game.runTicks [wEnvIntercept] [(NukeExecution.tick wEnvIntercept sInFlight).1]).2 = [] := by
  obtain ⟨h1, h2⟩ := c6_interception_cancels wEnvIntercept sInFlight uFix rfl rfl
  exact ⟨h1, h2 _⟩

/-- C7 counterexample: a MIRV-warhead launch against a player-owned
destination notifies the statistics sink of the launch but emits no
display event, refuting the claim that the alert is emitted alongside the
statistics notification for every weapon class. -/
theorem c7_counterexample :
    wEnv.owner cexC7.dst = some 2 ∧
    cexC7.nuke = none ∧
    wEnv.canBuild cexC7.nukeType cexC7.dst = some 0 ∧
    Effect.statsBombLaunch 1 (some 2) UnitType.MIRVWarhead ∈ (NukeExecution.tick wEnv cexC7).2 ∧
    ((NukeExecution.tick wEnv cexC7).2.all fun e => !e.isDisplayFx) = true := by
  refine ⟨rfl, rfl, rfl, ?_, ?_⟩
  · decide
  · decide

theorem c7_witness :
    Effect.statsBombLaunch 1 (some 2) UnitType.AtomBomb ∈ (NukeExecution.tick wEnv qFix).2 ∧
    Effect.display 42 MessageType.NUKE_INBOUND
        (wEnv.playerName 1 ++ " - atom bomb inbound") 2 ∈ (NukeExecution.tick wEnv qFix).2 := by
  obtain ⟨hpos, _⟩ := c7_launch_alert_and_stats wEnv qFix 0 rfl rfl
  obtain ⟨h1, h2, _⟩ := hpos 2 rfl
  exact ⟨h1, h2 rfl⟩

theorem c8_witness :
    ([NukeOp.init wEnv, NukeOp.tick wEnv, NukeOp.destroy].foldl NukeOp.apply
      { qFix with active := false }).active = false :=
  c8_inactive_monotone _ _ rfl

theorem c9_witness :
    NukeExecution.tick wEnv sWait = ({ sWait with waitTicks := 1 }, []) :=
  c9_wait_tick_throttles wEnv sWait uFix rfl rfl (by decide)

theorem c10_witness :
    (NukeExecution.destroyInFlight sInFlight).1.active = false ∧
    NukeExecution.isInFlight (NukeExecution.destroyInFlight sInFlight).1 = false ∧
    (NukeExecution.destroyInFlight sInFlight).2 = [Effect.deleteUnit 42 false none] ∧
    NukeExecution.destroyInFlight (NukeExecution.destroyInFlight sInFlight).1 =
      ((NukeExecution.destroyInFlight sInFlight).1, []) := by
  obtain ⟨h1, _, h3⟩ := c10_destroyInFlight_idempotent sInFlight
  obtain ⟨ha, hb, hc, _⟩ := h1 rfl
  exact ⟨ha, hb, hc uFix rfl, h3⟩
